import Mathlib

/-!
# Verification of the xlsqlite SQLITE pipeline

A shallow embedding of the `xlsqlite` query pipeline
(`xlsqlite/ext/sqlite/{errors,parser,schema,executor,output,main}.py`).

Conventions of the embedding:
* Python strings are Lean `String`s; the scanners work on `String.data`
  (`List Char`), mirroring Python's index loops by structural recursion.
* SQLite cell values are modelled by `Cell` (NULL, integer, real, text,
  boolean); Python floats are modelled by rationals, so `float(x).is_integer()`
  becomes `x.den = 1`.  Wall-clock timing fields (`execution_time_ms`) are
  omitted: they carry no information the specification constrains.
* External collaborators (the `xl()` host resolver and the sqlite3 engine)
  are oracle fields of an `Env` record; everything written in the repository
  itself is translated definitionally.
* Python exceptions become `Except` values: `XLErr` models the
  `SQLiteExcelError` hierarchy of `errors.py`, `EngineError` models raw
  `sqlite3` exceptions that the outermost handler normalizes.
-/

/-- A single spreadsheet / SQLite cell value. -/
inductive Cell where
  | null
  | int (k : Int)
  | real (q : Rat)
  | text (s : String)
  | bool (b : Bool)
deriving DecidableEq, Repr

/-- A tabular value (the embedding of a pandas DataFrame: ordered column
names plus rows of cells). -/
structure DataFrame where
  columns : List String
  rows : List (List Cell)
deriving DecidableEq, Repr

/-! ## errors.py -/

/-- The `SQLiteExcelError` hierarchy of `errors.py`.  Each constructor
carries exactly the data its Python `__init__` receives; `raw` models a
`SQLiteExcelError(message)` raised directly (as `main.py` does for the
output-limit message). -/
inductive XLErr where
  | tableNotFound (name : String)
  | columnNotFound (name : String)
  | duplicateColumn (name : String)
  | emptyColumnName (position : Option Nat)
  | querySyntax (nearToken : Option String) (details : Option String)
  | rangeResolution (ref : String) (reason : Option String)
  | emptyRange (ref : String)
  | executionError (msg : String)
  | outputLimit (rowCount : Nat) (limit : Nat)
  | raw (msg : String)
deriving DecidableEq, Repr

/-- The message body each error class passes to `SQLiteExcelError.__init__`. -/
def XLErr.body : XLErr → String
  | .tableNotFound n => "no such table: " ++ n
  | .columnNotFound n => "no such column: " ++ n
  | .duplicateColumn n => "duplicate column name: " ++ n
  | .emptyColumnName (some p) =>
      "column name cannot be empty (position " ++ toString p ++ ")"
  | .emptyColumnName none => "column name cannot be empty"
  | .querySyntax (some t) _ => "near \"" ++ t ++ "\": syntax error"
  | .querySyntax none (some d) => d
  | .querySyntax none none => "syntax error"
  | .rangeResolution r (some why) =>
      "cannot resolve range: " ++ r ++ " (" ++ why ++ ")"
  | .rangeResolution r none => "cannot resolve range: " ++ r
  | .emptyRange r => "range contains no data: " ++ r
  | .executionError m => m
  | .outputLimit n l =>
      "result set too large: " ++ toString n ++ " rows (limit: " ++
        toString l ++ "). Use LIMIT clause to reduce output."
  | .raw m => m

/-- `SQLiteExcelError.__init__` prefixes every message with `Error: `;
`str(e)` returns exactly this. -/
def renderError (e : XLErr) : String := "Error: " ++ e.body

/-- The class of a raw sqlite3 exception, as tested by
`normalize_sqlite_error` with `isinstance`. -/
inductive EngineErrorKind where
  | operational
  | integrity
  | programming
  | database
  | generic
deriving DecidableEq, Repr

/-- A raw exception escaping the engine (or any other non-`SQLiteExcelError`
exception caught by the top-level handler); `msg` is Python's `str(error)`. -/
structure EngineError where
  kind : EngineErrorKind
  msg : String
deriving DecidableEq, Repr

/-- Substring scan on character lists: `sub` occurs contiguously in `l`. -/
def listInfix (sub : List Char) : List Char → Bool
  | [] => sub.isEmpty
  | c :: rest => sub.isPrefixOf (c :: rest) || listInfix sub rest

/-- Python's `sub in s` substring test. -/
def containsSubstr (s sub : String) : Bool := listInfix sub.data s.data

/-- The whitespace characters of Python's `str.strip` / `str.isspace` and
of the `re` module's `\s` (ASCII range). -/
def wsChar (c : Char) : Bool :=
  c = ' ' || c = '\t' || c = '\n' || c = '\r' || c = '\x0b' || c = '\x0c'

/-- Python `str.strip()`. -/
def trimStr (s : String) : String :=
  String.mk (((s.data.dropWhile wsChar).reverse.dropWhile wsChar).reverse)

/-- Python `str.lower()` (ASCII). -/
def lowerStr (s : String) : String := String.mk (s.data.map Char.toLower)

/-- Python `str.upper()` (ASCII). -/
def upperStr (s : String) : String := String.mk (s.data.map Char.toUpper)

/-- One-pass non-overlapping left-to-right replacement on character lists
(Python `str.replace`); the fuel — always instantiated with the input
length, which bounds the number of steps — only makes the recursion
structural. -/
def replaceList (pat rep : List Char) : Nat → List Char → List Char
  | 0, l => l
  | _ + 1, [] => []
  | fuel + 1, c :: rest =>
      if ¬ pat.isEmpty ∧ pat.isPrefixOf (c :: rest) then
        rep ++ replaceList pat rep fuel ((c :: rest).drop pat.length)
      else c :: replaceList pat rep fuel rest

/-- Python `str.replace` for strings. -/
def replaceStr (s pat rep : String) : String :=
  String.mk (replaceList pat.data rep.data s.data.length s.data)

/-- `normalize_sqlite_error` from `errors.py`: inspect the message of a raw
engine error and map it onto the canonical taxonomy. -/
def normalize_sqlite_error (e : EngineError) : XLErr :=
  match e.kind with
  | .operational =>
      let t1 : Option XLErr :=
        if containsSubstr e.msg "no such table" then
          ((e.msg.splitOn "no such table:").get? 1).map
            (fun p => .tableNotFound (trimStr p))
        else none
      match t1 with
      | some r => r
      | none =>
        let t2 : Option XLErr :=
          if containsSubstr e.msg "no such column" then
            ((e.msg.splitOn "no such column:").get? 1).map
              (fun p => .columnNotFound (trimStr p))
          else none
        match t2 with
        | some r => r
        | none =>
          if containsSubstr (lowerStr e.msg) "syntax error" then
            .querySyntax none (some e.msg)
          else .executionError e.msg
  | .integrity => .executionError ("integrity error: " ++ e.msg)
  | .programming => .executionError ("programming error: " ++ e.msg)
  | .database => .executionError e.msg
  | .generic => .executionError e.msg

/-- A failure propagating out of `_execute_sqlite`: either an
`SQLiteExcelError` or a raw engine/other exception. -/
inductive PyError where
  | xlerr (e : XLErr)
  | engine (e : EngineError)
deriving DecidableEq, Repr

/-- `format_error_for_excel` from `errors.py`. -/
def format_error_for_excel : PyError → String
  | .xlerr e => renderError e
  | .engine e => renderError (normalize_sqlite_error e)

/-! ## parser.py: parameter counting -/

/-- Inner loop of `count_parameters`: the state is the opening quote
character while inside a string literal.  A doubled quote inside a literal
is an escape and is skipped. -/
def countParamsAux : List Char → Option Char → Nat
  | [], _ => 0
  | c :: rest, none =>
      if c = '\'' ∨ c = '"' then countParamsAux rest (some c)
      else if c = '?' then countParamsAux rest none + 1
      else countParamsAux rest none
  | [_], some _ => 0
  | c :: c2 :: rest2, some sc =>
      if c = sc then
        if c2 = sc then countParamsAux rest2 (some sc)
        else countParamsAux (c2 :: rest2) none
      else countParamsAux (c2 :: rest2) (some sc)

/-- `count_parameters` from `parser.py`: number of `?` placeholders outside
string literals. -/
def count_parameters (query : String) : Nat := countParamsAux query.data none

/-- `is_parameterized_query` from `parser.py`. -/
def is_parameterized_query (query : String) : Bool := count_parameters query > 0

/-! ## executor.py: statement splitting and query-type detection -/

/-- Inner loop of `split_statements`; `cur` is the current statement in
reverse order. -/
def splitStmtsAux : List Char → Option Char → List Char → List String
  | [], _, cur =>
      let s := trimStr (String.mk cur.reverse)
      if s = "" then [] else [s]
  | [c], some _, cur =>
      let s := trimStr (String.mk (c :: cur).reverse)
      if s = "" then [] else [s]
  | c :: c2 :: rest2, some sc, cur =>
      if c = sc then
        if c2 = sc then splitStmtsAux rest2 (some sc) (c2 :: c :: cur)
        else splitStmtsAux (c2 :: rest2) none (c :: cur)
      else splitStmtsAux (c2 :: rest2) (some sc) (c :: cur)
  | c :: rest, none, cur =>
      if c = '\'' ∨ c = '"' then splitStmtsAux rest (some c) (c :: cur)
      else if c = ';' then
        let s := trimStr (String.mk cur.reverse)
        if s = "" then splitStmtsAux rest none []
        else s :: splitStmtsAux rest none []
      else splitStmtsAux rest none (c :: cur)

/-- `split_statements` from `executor.py`: split on `;` while tracking
string-literal state; empty statements are discarded. -/
def split_statements (sql : String) : List String := splitStmtsAux sql.data none []

/-- `a.isPrefixOf b` for strings via their character lists (Python
`str.startswith`). -/
def strStarts (s pre : String) : Bool := pre.data.isPrefixOf s.data

/-- `query.strip().upper()` (ASCII uppercase, as all scrutinised characters
are ASCII). -/
def stripUpper (query : String) : String :=
  upperStr (trimStr query)

/-- `detect_query_type` from `executor.py`.  The keyword loop is unrolled in
its textual order. -/
def detect_query_type (query : String) : String :=
  let stripped := stripUpper query
  if strStarts stripped "WITH" then
    if containsSubstr stripped "SELECT" then "SELECT" else "OTHER"
  else if strStarts stripped "SELECT" then "SELECT"
  else if strStarts stripped "INSERT" then "INSERT"
  else if strStarts stripped "UPDATE" then "UPDATE"
  else if strStarts stripped "DELETE" then "DELETE"
  else if strStarts stripped "CREATE" then "CREATE"
  else if strStarts stripped "DROP" then "DROP"
  else if strStarts stripped "PRAGMA" then "PRAGMA"
  else if strStarts stripped "EXPLAIN" then "EXPLAIN"
  else "OTHER"

/-! ## parser.py: the literal / comment preprocessing passes -/

/-- The lookahead of `_remove_string_literals`: from the character after an
opening single quote, the index of the first `'` whose successor is not
another `'` (the scan advances one character at a time, so the second quote
of an escaped pair can itself be recognised as the closing quote — this
quirk of the source is preserved). -/
def findCloseIdx : List Char → Option Nat
  | [] => none
  | '\'' :: rest =>
      match rest with
      | '\'' :: _ => (findCloseIdx rest).map (· + 1)
      | _ => some 0
  | _ :: rest => (findCloseIdx rest).map (· + 1)

/-- Scanner state of `_remove_string_literals`. -/
inductive LitState where
  | out
  | inS
  | inD
deriving DecidableEq, Repr

/-- `_remove_string_literals` from `parser.py`: blank out single-quoted
string literals (but preserve a quoted run immediately followed by `.` or
`!`, which denotes a sheet name) and keep double-quoted identifiers.  Every
step consumes at least one character, so a fuel equal to the input length
makes the recursion structural without changing the computed value. -/
def rmLitAux : Nat → List Char → LitState → List Char
  | 0, _, _ => []
  | _ + 1, [], _ => []
  | fuel + 1, c :: rest, .out =>
      if c = '\'' then
        match findCloseIdx rest with
        | some j =>
            match rest.drop (j + 1) with
            | sep :: _ =>
                if sep = '.' ∨ sep = '!' then
                  '\'' :: rest.take (j + 2) ++ rmLitAux fuel (rest.drop (j + 2)) .out
                else ' ' :: rmLitAux fuel rest .inS
            | [] => ' ' :: rmLitAux fuel rest .inS
        | none => ' ' :: rmLitAux fuel rest .inS
      else if c = '"' then '"' :: rmLitAux fuel rest .inD
      else c :: rmLitAux fuel rest .out
  | _ + 1, [_], .inS => [' ']
  | fuel + 1, c :: c2 :: rest2, .inS =>
      if c = '\'' then
        if c2 = '\'' then ' ' :: ' ' :: rmLitAux fuel rest2 .inS
        else ' ' :: rmLitAux fuel (c2 :: rest2) .out
      else ' ' :: rmLitAux fuel (c2 :: rest2) .inS
  | _ + 1, [c], .inD => [c]
  | fuel + 1, c :: c2 :: rest2, .inD =>
      if c = '"' then
        if c2 = '"' then '"' :: '"' :: rmLitAux fuel rest2 .inD
        else '"' :: rmLitAux fuel (c2 :: rest2) .out
      else c :: rmLitAux fuel (c2 :: rest2) .inD

/-- `_remove_string_literals` on strings. -/
def remove_string_literals (query : String) : String :=
  String.mk (rmLitAux query.data.length query.data .out)

/-- First half of `_remove_comments`: `re.sub(r"--[^\n]*", " ", query)` —
each single-line comment collapses to one space.  The Boolean state is
"currently inside a `--` comment" (which ends just before the newline). -/
def rmLineComments : Bool → List Char → List Char
  | _, [] => []
  | true, c :: rest =>
      if c = '\n' then '\n' :: rmLineComments false rest
      else rmLineComments true rest
  | false, '-' :: '-' :: rest => ' ' :: rmLineComments true rest
  | false, c :: rest => c :: rmLineComments false rest

/-- Scan for the first `*/`, returning the suffix after it. -/
def splitAtClose : List Char → Option (List Char)
  | [] => none
  | [_] => none
  | c :: c2 :: rest =>
      if c = '*' ∧ c2 = '/' then some rest else splitAtClose (c2 :: rest)

/-- Second half of `_remove_comments`:
`re.sub(r"/\*.*?\*/", " ", query, flags=re.DOTALL)` — non-greedy, so each
`/*` pairs with the earliest following `*/`; an unmatched `/*` is left in
place.  Fuel as in `rmLitAux`. -/
def rmBlockComments : Nat → List Char → List Char
  | 0, _ => []
  | _ + 1, [] => []
  | fuel + 1, '/' :: '*' :: rest =>
      match splitAtClose rest with
      | some after => ' ' :: rmBlockComments fuel after
      | none => '/' :: rmBlockComments fuel ('*' :: rest)
  | fuel + 1, c :: rest => c :: rmBlockComments fuel rest

/-- The combined preprocessing of `extract_table_references`: first
`_remove_string_literals`, then `_remove_comments`. -/
def cleanedQuery (query : String) : List Char :=
  let noLits := rmLitAux query.data.length query.data .out
  let noLine := rmLineComments false noLits
  rmBlockComments noLine.length noLine

/-- `_remove_comments` from `parser.py`. -/
def remove_comments (query : String) : String :=
  let noLine := rmLineComments false query.data
  String.mk (rmBlockComments noLine.length noLine)

/-! ## parser.py: token extraction -/

/-- Body of a double-quoted identifier for `_extract_identifier`: collect up
to and including the closing quote, treating `""` as an escape; `none` when
unclosed. -/
def dqBody : List Char → Option (List Char)
  | [] => none
  | '"' :: '"' :: rest => (dqBody rest).map (fun t => '"' :: '"' :: t)
  | '"' :: _ => some ['"']
  | c :: rest => (dqBody rest).map (c :: ·)

/-- Body of a single-quoted identifier for `_extract_identifier`. -/
def sqBody : List Char → Option (List Char)
  | [] => none
  | '\'' :: '\'' :: rest => (sqBody rest).map (fun t => '\'' :: '\'' :: t)
  | '\'' :: _ => some ['\'']
  | c :: rest => (sqBody rest).map (c :: ·)

/-- Characters of an unquoted identifier or range token:
letters, digits, `_`, `$`, `:`. -/
def identChar (c : Char) : Bool := c.isAlphanum || c = '_' || c = '$' || c = ':'

/-- `_extract_identifier` from `parser.py` on the suffix starting at the
given position. -/
def extractIdentifier : List Char → Option (List Char)
  | [] => none
  | '"' :: rest => (dqBody rest).map (fun t => '"' :: t)
  | '\'' :: rest => (sqBody rest).map (fun t => '\'' :: t)
  | c :: rest =>
      let run := (c :: rest).takeWhile identChar
      if run.isEmpty then none else some run

/-- `_extract_reference_at_position` from `parser.py`, acting on the suffix
of the (preprocessed) query that starts at the position after an anchor
keyword. -/
def extractRefAt (l0 : List Char) : Option (List Char) :=
  let l := l0.dropWhile wsChar
  match l with
  | [] => none
  | '\'' :: rest =>
      match List.findIdx? (fun c => c = '\'') rest with
      | none => none
      | some k =>
          match rest.drop (k + 1) with
          | sep :: rest2 =>
              if sep = '.' ∨ sep = '!' then
                match extractIdentifier rest2 with
                | some tail => some ('\'' :: rest.take (k + 1) ++ sep :: tail)
                | none => none
              else none
          | [] => none
  | c :: rest =>
      match extractIdentifier (c :: rest) with
      | none => none
      | some ident =>
          match (c :: rest).drop ident.length with
          | sep :: rest2 =>
              if sep = '.' ∨ sep = '!' then
                let rest2w := rest2.dropWhile wsChar
                let tail :=
                  match rest2w with
                  | '\'' :: r3 =>
                      match List.findIdx? (fun d => d = '\'') r3 with
                      | some k2 => some ('\'' :: r3.take (k2 + 1))
                      | none => extractIdentifier rest2w
                  | _ => extractIdentifier rest2w
                match tail with
                | some t => some (ident ++ sep :: t)
                | none => some ident
              else some ident
          | [] => some ident

/-! ## parser.py: anchor scanning

`extract_table_references` finds anchors with `re.finditer`.  For the
`FROM`/`JOIN` pattern the match span is the keyword plus whitespace, which
contains no further anchor start, so scanning every position one character
at a time produces exactly the `finditer` matches.  For the `UPDATE` /
`INSERT INTO` patterns the captured group could itself contain an anchor
keyword, so after a successful match the scan resumes after the group, as
`finditer` does. -/

/-- `\w` of the `re` module (on the ASCII inputs scrutinised here). -/
def reWordChar (c : Char) : Bool := c.isAlphanum || c = '_'

/-- Case-insensitive prefix test (a regex literal under `re.IGNORECASE`). -/
def ciPrefix : List Char → List Char → Bool
  | [], _ => true
  | _ :: _, [] => false
  | a :: ra, b :: rb => (Char.toLower a = Char.toLower b) && ciPrefix ra rb

/-- First character exists and is whitespace (start of a `\s+` match). -/
def headWS : List Char → Bool
  | c :: _ => wsChar c
  | [] => false

/-- All suffixes of the preprocessed query at which a match of
`\b(?:FROM|JOIN)\s+` ends; `prevWord` is the word-character status of the
preceding character (for `\b`). -/
def anchorSuffixes (prevWord : Bool) : List Char → List (List Char)
  | [] => []
  | c :: rest =>
      let tail := anchorSuffixes (reWordChar c) rest
      if !prevWord &&
          (ciPrefix "FROM".data (c :: rest) || ciPrefix "JOIN".data (c :: rest)) &&
          headWS ((c :: rest).drop 4) then
        (((c :: rest).drop 4).dropWhile wsChar) :: tail
      else tail

/-- A character allowed in the captured group of `\bUPDATE\s+([^\s,;]+)`. -/
def updTokChar (c : Char) : Bool := !(wsChar c) && c ≠ ',' && c ≠ ';'

/-- A character allowed in the captured group of
`\bINSERT\s+INTO\s+([^\s,;(]+)`. -/
def insTokChar (c : Char) : Bool := !(wsChar c) && c ≠ ',' && c ≠ ';' && c ≠ '('

/-- The captured groups of `re.finditer(r"\bUPDATE\s+([^\s,;]+)", ...)`
in order.  After a successful match the scan resumes after the captured
group (matches are non-overlapping); fuel as in `rmLitAux`. -/
def updateGroups : Nat → Bool → List Char → List (List Char)
  | 0, _, _ => []
  | _ + 1, _, [] => []
  | fuel + 1, prevWord, c :: rest =>
      if !prevWord && ciPrefix "UPDATE".data (c :: rest) &&
          headWS ((c :: rest).drop 6) then
        let afterWs := ((c :: rest).drop 6).dropWhile wsChar
        let group := afterWs.takeWhile updTokChar
        if group.isEmpty then updateGroups fuel (reWordChar c) rest
        else group :: updateGroups fuel (reWordChar (group.getLastD ' '))
            (afterWs.dropWhile updTokChar)
      else updateGroups fuel (reWordChar c) rest

/-- The captured groups of
`re.finditer(r"\bINSERT\s+INTO\s+([^\s,;(]+)", ...)` in order; fuel as in
`rmLitAux`. -/
def insertGroups : Nat → Bool → List Char → List (List Char)
  | 0, _, _ => []
  | _ + 1, _, [] => []
  | fuel + 1, prevWord, c :: rest =>
      if !prevWord && ciPrefix "INSERT".data (c :: rest) &&
          headWS ((c :: rest).drop 6) then
        let afterWs1 := ((c :: rest).drop 6).dropWhile wsChar
        if ciPrefix "INTO".data afterWs1 && headWS (afterWs1.drop 4) then
          let afterWs2 := (afterWs1.drop 4).dropWhile wsChar
          let group := afterWs2.takeWhile insTokChar
          if group.isEmpty then insertGroups fuel (reWordChar c) rest
          else group :: insertGroups fuel (reWordChar (group.getLastD ' '))
              (afterWs2.dropWhile insTokChar)
        else insertGroups fuel (reWordChar c) rest
      else insertGroups fuel (reWordChar c) rest

/-! ## parser.py: reference classification (`parse_reference`) -/

/-- Consume one cell reference `\$?[A-Z]+\$?\d+` (case-insensitive),
returning the remainder. -/
def consumeCellRef (l : List Char) : Option (List Char) :=
  let l1 := match l with | '$' :: r => r | _ => l
  let letters := l1.takeWhile (fun c => c.isAlpha)
  if letters.isEmpty then none
  else
    let l2 := l1.drop letters.length
    let l3 := match l2 with | '$' :: r => r | _ => l2
    let digits := l3.takeWhile (fun c => c.isDigit)
    if digits.isEmpty then none else some (l3.drop digits.length)

/-- Full match of `^(\$?[A-Z]+\$?\d+):(\$?[A-Z]+\$?\d+)$` (IGNORECASE). -/
def isRangeTok (l : List Char) : Bool :=
  match consumeCellRef l with
  | some (':' :: r2) =>
      match consumeCellRef r2 with
      | some [] => true
      | _ => false
  | _ => false

/-- Match of `^(?:'([^']+)'|([^!]+))!(<range>)$`: either a single-quoted
sheet (interior up to the first quote, nonempty) or everything before the
first `!`.  Returns the sheet text and the range characters. -/
def crossSheetMatch (l : List Char) : Option (String × List Char) :=
  let b1 : Option (String × List Char) :=
    match l with
    | '\'' :: rest =>
        match List.findIdx? (fun c => c = '\'') rest with
        | some k =>
            if k = 0 then none
            else
              match rest.drop (k + 1) with
              | '!' :: rng =>
                  if isRangeTok rng then some (String.mk (rest.take k), rng)
                  else none
              | _ => none
        | none => none
    | _ => none
  match b1 with
  | some r => some r
  | none =>
      match List.findIdx? (fun c => c = '!') l with
      | some k =>
          if k = 0 then none
          else
            let rng := l.drop (k + 1)
            if isRangeTok rng then some (String.mk (l.take k), rng) else none
      | none => none

/-- Match of `^(?:'([^']+)'|([^.]+))\.(.+)$`: quoted sheet followed by a
dot, or a split at the first dot.  Returns sheet and table text. -/
def sheetTableMatch (l : List Char) : Option (String × String) :=
  let b1 : Option (String × String) :=
    match l with
    | '\'' :: rest =>
        match List.findIdx? (fun c => c = '\'') rest with
        | some k =>
            if k = 0 then none
            else
              match rest.drop (k + 1) with
              | '.' :: t =>
                  if t.isEmpty then none
                  else some (String.mk (rest.take k), String.mk t)
              | _ => none
        | none => none
    | _ => none
  match b1 with
  | some r => some r
  | none =>
      match List.findIdx? (fun c => c = '.') l with
      | some k =>
          if k = 0 then none
          else
            let t := l.drop (k + 1)
            if t.isEmpty then none
            else some (String.mk (l.take k), String.mk t)
      | none => none

/-! ## parser.py: `_generate_sqlite_name` -/

/-- `re.sub(r"[^...]+", "_", s)`: replace each maximal run of non-kept
characters by a single underscore. -/
def collapseRuns (keep : Char → Bool) : Bool → List Char → List Char
  | _, [] => []
  | inRun, c :: rest =>
      if keep c then c :: collapseRuns keep false rest
      else if inRun then collapseRuns keep true rest
      else '_' :: collapseRuns keep true rest

/-- Python `str.strip("_")`. -/
def stripUnderscores (l : List Char) : List Char :=
  ((l.dropWhile (fun c => c = '_')).reverse.dropWhile (fun c => c = '_')).reverse

/-- One component of `_generate_sqlite_name`: lowercase, collapse the
non-kept runs, strip underscores. -/
def sanitizePart (keep : Char → Bool) (s : String) : List Char :=
  stripUnderscores (collapseRuns keep false (s.data.map Char.toLower))

/-- The `parts` list of `_generate_sqlite_name` (a falsy — empty — component
is skipped before sanitization, per `if sheet_name:`). -/
def genParts (sheet table rng : Option String) : List (List Char) :=
  (match sheet with
   | some s => if s = "" then [] else [sanitizePart reWordChar s]
   | none => []) ++
  (match table with
   | some s => if s = "" then [] else [sanitizePart reWordChar s]
   | none => []) ++
  (match rng with
   | some s => if s = "" then [] else [sanitizePart (fun c => c.isAlphanum) s]
   | none => [])

/-- `"_".join(parts)`. -/
def joinUnderscore : List (List Char) → List Char
  | [] => []
  | [p] => p
  | p :: q :: rest => p ++ '_' :: joinUnderscore (q :: rest)

/-- `_generate_sqlite_name` from `parser.py`. -/
def generate_sqlite_name (sheet table rng : Option String) : String :=
  let name := joinUnderscore (genParts sheet table rng)
  let name :=
    match name with
    | c :: _ => if c.isDigit then 'r' :: '_' :: name else name
    | [] => name
  if name.isEmpty then "table_ref" else String.mk name

/-- A character allowed in a derived engine name: a non-uppercase
alphanumeric, or an underscore. -/
def engineNameChar (c : Char) : Bool := (c.isAlphanum && !c.isUpper) || c == '_'

/-! ## parser.py: `parse_reference` and `extract_table_references` -/

/-- The canonical form of one discovered spreadsheet reference
(`TableReference` of `parser.py`). -/
structure TableReference where
  original : String
  sheet_name : Option String
  table_name : Option String
  range_ref : Option String
  sqlite_name : String
deriving DecidableEq, Repr

/-- `TableReference.is_named_table`. -/
def TableReference.is_named_table (r : TableReference) : Bool := r.table_name.isSome

/-- `TableReference.is_range`. -/
def TableReference.is_range (r : TableReference) : Bool := r.range_ref.isSome

/-- Strip an outer pair of double quotes and unescape doubled quotes, as
`parse_reference` does for table names. -/
def stripDQ (s : String) : String :=
  match h : s.data with
  | c :: _ =>
      if c = '"' ∧ s.data.getLast (by simp [h]) = '"' then
        (String.mk ((s.data.drop 1).dropLast)).replace "\"\"" "\""
      else s
  | [] => s

/-- `parse_reference` from `parser.py`; `none` models the `ValueError` for
an empty reference. -/
def parse_reference (ref0 : String) : Option TableReference :=
  if trimStr ref0 = "" then none
  else
    let ref := trimStr ref0
    let l := ref.data
    match crossSheetMatch l with
    | some (sheet, rng) =>
        let rngU := upperStr (String.mk rng)
        some ⟨ref, some sheet, none, some rngU,
          generate_sqlite_name (some sheet) none (some rngU)⟩
    | none =>
        if isRangeTok l then
          let rngU := upperStr ref
          some ⟨ref, none, none, some rngU,
            generate_sqlite_name none none (some rngU)⟩
        else
          match sheetTableMatch l with
          | some (sheet, tbl) =>
              let tbl2 := stripDQ tbl
              some ⟨ref, some sheet, some tbl2, none,
                generate_sqlite_name (some sheet) (some tbl2) none⟩
          | none =>
              let t := stripDQ ref
              some ⟨ref, none, some t, none,
                generate_sqlite_name none (some t) none⟩

/-- The shared `seen`-set loop of `extract_table_references`: keep the first
occurrence of each candidate text, parse it, silently skip parse failures. -/
def dedupeParse : List String → List String → List TableReference
  | [], _ => []
  | t :: rest, seen =>
      if t ≠ "" ∧ ¬ seen.contains t then
        match parse_reference t with
        | some ref => ref :: dedupeParse rest (t :: seen)
        | none => dedupeParse rest seen
      else dedupeParse rest seen

/-- `extract_table_references` from `parser.py`: preprocess (literals, then
comments), then the `FROM`/`JOIN` pass, the `UPDATE` pass and the
`INSERT INTO` pass, deduplicated by candidate text. -/
def extract_table_references (query : String) : List TableReference :=
  let cleaned := cleanedQuery query
  let pass1 := (anchorSuffixes false cleaned).filterMap
      (fun suf => (extractRefAt suf).map String.mk)
  let pass2 := (updateGroups cleaned.length false cleaned).map (fun g => trimStr (String.mk g))
  let pass3 := (insertGroups cleaned.length false cleaned).map (fun g => trimStr (String.mk g))
  dedupeParse (pass1 ++ pass2 ++ pass3) []

/-! ## parser.py: `substitute_references` -/

/-- `\b` of the `re` module: exactly one side is a word character
(`none` = string edge). -/
def boundaryB (a b : Option Char) : Bool :=
  (match a with | some c => reWordChar c | none => false) !=
  (match b with | some c => reWordChar c | none => false)

/-- Does a match of the (escaped, IGNORECASE) reference pattern start here?
`useB` selects the word-boundary variant used for unquoted references. -/
def matchesHere (useB : Bool) (ref : List Char) (prev : Option Char)
    (s : List Char) : Bool :=
  !ref.isEmpty && ciPrefix ref s &&
  (!useB ||
    (boundaryB prev s.head? && boundaryB (s.get? (ref.length - 1)) (s.get? ref.length)))

/-- The scan of `re.sub`: leftmost, non-overlapping; on a match the
replacement is emitted and scanning resumes after the matched span of the
subject; fuel as in `rmLitAux` (a match always consumes at least one
subject character, since the pattern is a nonempty reference text). -/
def rtcAux (ref rep : List Char) (useB : Bool) :
    Nat → Option Char → List Char → List Char
  | 0, _, _ => []
  | _ + 1, _, [] => []
  | fuel + 1, prev, c :: rest =>
      if matchesHere useB ref prev (c :: rest) then
        rep ++ rtcAux ref rep useB fuel ((c :: rest).get? (ref.length - 1))
          ((c :: rest).drop ref.length)
      else c :: rtcAux ref rep useB fuel (some c) rest

/-- Stable insertion for the descending-length sort of the mapping keys
(Python `sorted(..., key=len, reverse=True)` is stable). -/
def sortInsert (x : String × String) :
    List (String × String) → List (String × String)
  | [] => [x]
  | y :: ys => if y.1.length ≤ x.1.length then x :: y :: ys else y :: sortInsert x ys

/-- Sort mapping entries by key length, longest first, stable. -/
def sortByLenDesc (l : List (String × String)) : List (String × String) :=
  l.foldr sortInsert []

/-- `substitute_references` from `parser.py`: for each mapping key, longest
first, a case-insensitive whole-token `re.sub` (no word boundaries when the
key contains a single quote). -/
def substitute_references (query : String) (mapping : List (String × String)) :
    String :=
  if mapping.isEmpty then query
  else
    (sortByLenDesc mapping).foldl
      (fun res p =>
        String.mk (rtcAux p.1.data p.2.data (!(p.1.data.contains '\''))
          res.data.length none res.data))
      query

/-- Spec-side, from the amended C4 wording: a case-insensitive whole-token
occurrence of `o` starts at position `i` of the text `l` — the next
`o.length` characters of `l` equal `o` up to case, and (unless `useB` is
off, for originals containing a single quote) both ends of the span lie on
word boundaries. -/
def occursAtB (useB : Bool) (o l : List Char) (i : Nat) : Bool :=
  !o.isEmpty && decide (i + o.length ≤ l.length) &&
    decide (((l.drop i).take o.length).map Char.toLower = o.map Char.toLower) &&
    (!useB ||
      (boundaryB (if i = 0 then none else l.get? (i - 1)) (l.get? i) &&
        boundaryB (l.get? (i + o.length - 1)) (l.get? (i + o.length))))

/-- Spec-side, from the amended C4 wording: scan the text left to right; a
whole-token occurrence of `o` is replaced by `n` and the scan resumes
after it; every other character is kept unchanged. -/
def specSubAux (o n : List Char) (useB : Bool) (l : List Char) :
    Nat → Nat → List Char
  | 0, _ => []
  | fuel + 1, i =>
      if h : i < l.length then
        if occursAtB useB o l i then
          n ++ specSubAux o n useB l fuel (i + o.length)
        else l.get ⟨i, h⟩ :: specSubAux o n useB l fuel (i + 1)
      else []

/-- Spec-side, from the amended C4 wording: one textual replacement pass —
replace every case-insensitive whole-token occurrence of `o` in `text` by
`n`, leftmost first, non-overlapping, changing nothing else; no boundary
requirement when `o` contains a single quote. -/
def tokenPassSpec (o n : String) (text : String) : String :=
  String.mk (specSubAux o.data n.data (!(o.data.contains '\'')) text.data
    text.data.length 0)

/-! ## schema.py -/

/-- `validate_headers` from `schema.py`.  Headers are optional strings
(`none` models a null header cell; non-string cells enter through their
string rendering).  `seen` holds the lowercase keys of the Python dict. -/
def validateAux (seen : List String) : List (Option String) → Nat →
    Except XLErr (List String)
  | [], _ => .ok []
  | h :: rest, i =>
      match h with
      | none => .error (.emptyColumnName (some (i + 1)))
      | some s =>
          if trimStr s = "" then .error (.emptyColumnName (some (i + 1)))
          else if seen.contains (lowerStr (trimStr s)) then
            .error (.duplicateColumn (trimStr s))
          else
            match validateAux (lowerStr (trimStr s) :: seen) rest (i + 1) with
            | .ok v => .ok (trimStr s :: v)
            | .error e => .error e

/-- `validate_headers`: reject empty/null headers (1-based position) and
case-insensitive duplicates (first repeat, original casing), returning the
trimmed headers otherwise. -/
def validate_headers (headers : List (Option String)) : Except XLErr (List String) :=
  validateAux [] headers 0

/-- A header entry is empty: a null cell, or blank after trimming. -/
def entryEmpty : Option String → Bool
  | none => true
  | some s => trimStr s == ""

/-- The case-folded key under which header entries are compared. -/
def entryKey : Option String → String
  | none => ""
  | some s => lowerStr (trimStr s)

/-- The trimmed text of a header entry, original casing. -/
def entryTrim : Option String → String
  | none => ""
  | some s => trimStr s

/-- Entry `i` violates relative to the previously seen keys `seen`: it is
empty, or its key equals the key of an earlier entry or one of `seen`. -/
def violRelAt (seen : List String) (hs : List (Option String)) (i : Nat) : Bool :=
  entryEmpty (hs.getD i none) ||
    (seen ++ (hs.take i).map entryKey).contains (entryKey (hs.getD i none))

/-- Entry `i` is a violating entry of the header list: empty after trimming,
or comparing equal case-insensitively to an earlier entry. -/
def violAt (hs : List (Option String)) (i : Nat) : Bool := violRelAt [] hs i

/-- The reserved-word list of `sanitize_column_name`. -/
def reservedWords : List String :=
  ["select", "from", "where", "and", "or", "not", "null", "true", "false",
   "insert", "update", "delete", "create", "drop", "table", "index",
   "order", "by", "group", "having", "join", "left", "right", "inner",
   "outer", "on", "as", "in", "between", "like", "is", "case", "when",
   "then", "else", "end", "distinct", "limit", "offset", "union", "all"]

/-- `^[a-zA-Z_][a-zA-Z0-9_]*$`. -/
def isValidIdent : List Char → Bool
  | [] => false
  | c :: rest => (c.isAlpha || c = '_') && rest.all (fun d => d.isAlphanum || d = '_')

/-- `sanitize_column_name` from `schema.py`. -/
def sanitize_column_name (name : String) : String :=
  if isValidIdent name.data ∧ ¬ reservedWords.contains (lowerStr name) then name
  else "\"" ++ replaceStr name "\"" "\"\"" ++ "\""

/-- Schema information for a single column (`ColumnSchema`). -/
structure ColumnSchema where
  name : String
  sqlite_name : String
  sqlite_type : String
  nullable : Bool
deriving DecidableEq, Repr

/-- Complete schema for a table (`TableSchema`). -/
structure TableSchema where
  name : String
  sqlite_name : String
  columns : List ColumnSchema
  row_count : Int
deriving DecidableEq, Repr

/-- Is the value numeric in Python's `isinstance(x, (int, float))` sense
(booleans are ints in Python)? -/
def Cell.isNumeric : Cell → Bool
  | .int _ => true
  | .real _ => true
  | .bool _ => true
  | _ => false

/-- `float(x).is_integer()` on a numeric cell. -/
def Cell.isWhole : Cell → Bool
  | .int _ => true
  | .real q => q.den = 1
  | .bool _ => true
  | _ => false

/-- `infer_column_type` from `schema.py`; the pandas dtype predicates are
modelled value-wise on the cell domain (datetimes do not occur in this
embedding's cell domain). -/
def infer_column_type (col : List Cell) : String :=
  let nonNull := col.filter (fun c => c ≠ Cell.null)
  if nonNull.isEmpty then "TEXT"
  else if nonNull.all (fun c => match c with | .bool _ => true | _ => false) then
    "INTEGER"
  else if nonNull.all Cell.isNumeric then
    if nonNull.all Cell.isWhole then "INTEGER" else "REAL"
  else "TEXT"

/-- The cells of the column named `c` (`df[c]`, first matching label). -/
def DataFrame.col (df : DataFrame) (c : String) : List Cell :=
  match df.columns.findIdx? (fun n => n = c) with
  | some j => df.rows.map (fun row => row.getD j Cell.null)
  | none => []

/-- `build_table_schema` from `schema.py`.  The lookup
`types[col_name]` uses the trimmed header against the raw column labels; a
miss is Python's `KeyError`, surfacing as a generic exception. -/
def build_table_schema (df : DataFrame) (table_name : String) :
    Except PyError TableSchema := do
  let validated ← (validate_headers (df.columns.map some)).mapError PyError.xlerr
  let types := df.columns.map (fun c => (c, infer_column_type (df.col c)))
  let cols ← validated.mapM (fun c =>
    match types.lookup c with
    | some t => pure (⟨c, sanitize_column_name c, t, true⟩ : ColumnSchema)
    | none => throw (.engine ⟨.generic, "'" ++ c ++ "'"⟩))
  pure ⟨table_name, sanitize_column_name table_name, cols, Int.ofNat df.rows.length⟩

/-! ## executor.py / external engine -/

/-- What a `cursor.execute` exposes: `description` (column names, present
for row-producing statements), fetched rows, `rowcount`, `lastrowid`. -/
structure Cursor where
  description : Option (List String)
  rows : List (List Cell)
  rowcount : Int
  lastrowid : Option Int
deriving DecidableEq, Repr

/-- The outcome of one `xl()` host call (`schema.resolve_reference`'s view
of the external resolver). -/
inductive XlOutcome where
  | unavailable
  | raised (msg : String)
  | noneReturned
  | notDataFrame (typeName : String)
  | frame (df : DataFrame)
deriving DecidableEq, Repr

/-- The external world of one invocation: the sqlite3 engine (with opaque
state `σ`, fresh at `init`) and the spreadsheet host resolver. -/
structure Env (σ : Type) where
  init : σ
  exec : σ → String → List Cell → Except EngineError (σ × Cursor)
  loadTable : σ → TableSchema → DataFrame → Except EngineError σ
  xl : String → XlOutcome

/-- The result record of `executor.py` (`execution_time_ms` omitted:
wall-clock time is outside the embedding). -/
structure ExecutionResult where
  columns : List String
  rows : List (List Cell)
  rowcount : Int
  lastrowid : Option Int
  query_type : String
deriving DecidableEq, Repr

/-- `ExecutionResult.is_select`. -/
def ExecutionResult.is_select (r : ExecutionResult) : Bool :=
  upperStr r.query_type = "SELECT"

/-- The all-empty result returned when nothing ran. -/
def emptyExecResult : ExecutionResult := ⟨[], [], 0, none, "EMPTY"⟩

/-- `execute_query` from `executor.py`: detect the type, run the statement,
and package the cursor state. -/
def execute_query {σ : Type} (env : Env σ) (st : σ) (query : String)
    (params : List Cell) : Except PyError (σ × ExecutionResult) := do
  let qt := detect_query_type query
  let (st2, cur) ← (env.exec st query params).mapError PyError.engine
  if qt = "SELECT" ∨ qt = "PRAGMA" ∨ qt = "EXPLAIN" then
    let cols := match cur.description with | some d => d | none => []
    pure (st2, ⟨cols, cur.rows, Int.ofNat cur.rows.length, none, qt⟩)
  else
    pure (st2, ⟨[], [], cur.rowcount, cur.lastrowid, qt⟩)

/-- Loop body of `execute_multiple_statements`: run the statements in
order, remembering the last SELECT result and the last result. -/
def execStmts {σ : Type} (env : Env σ) :
    List String → σ → Option ExecutionResult → Option ExecutionResult →
    Except PyError (σ × Option ExecutionResult × Option ExecutionResult)
  | [], st, lastSel, last => .ok (st, lastSel, last)
  | stmt :: rest, st, lastSel, last =>
      if trimStr stmt = "" then execStmts env rest st lastSel last
      else
        match execute_query env st (trimStr stmt) [] with
        | .error e => .error e
        | .ok (st2, r) =>
            execStmts env rest st2 (if r.is_select then some r else lastSel) (some r)

/-- `execute_multiple_statements` from `executor.py`: split, run in order
with no parameters, return the last SELECT result, else the last result,
else an `EMPTY` result. -/
def execute_multiple_statements {σ : Type} (env : Env σ) (st : σ) (sql : String) :
    Except PyError (σ × ExecutionResult) := do
  let statements := split_statements sql
  if statements.isEmpty then
    pure (st, emptyExecResult)
  else
    let (st2, lastSel, last) ← execStmts env statements st none none
    match lastSel with
    | some r => pure (st2, r)
    | none =>
        match last with
        | some r => pure (st2, r)
        | none => pure (st2, emptyExecResult)

/-- `resolve_reference` from `schema.py`: build the textual reference for
`xl()`, call the host, validate the returned value. -/
def resolve_reference {σ : Type} (env : Env σ) (ref : TableReference) :
    Except PyError DataFrame :=
  let excelRef :=
    if ref.is_named_table then
      match ref.sheet_name with
      | some s => s ++ "." ++ ref.table_name.getD ""
      | none => ref.table_name.getD ""
    else
      match ref.sheet_name with
      | some s => s ++ "!" ++ ref.range_ref.getD ""
      | none => ref.range_ref.getD ""
  match env.xl excelRef with
  | .unavailable =>
      .error (.xlerr (.rangeResolution ref.original
        (some "xl() function not available - must run in Python in Excel environment")))
  | .raised m =>
      .error (.xlerr (.rangeResolution ref.original
        (some ("failed to resolve Excel reference: " ++ m))))
  | .noneReturned =>
      .error (.xlerr (.rangeResolution ref.original
        (some "xl() returned None - reference may not exist")))
  | .notDataFrame t =>
      .error (.xlerr (.rangeResolution ref.original
        (some ("xl() returned unexpected type: " ++ t ++ " (expected DataFrame)"))))
  | .frame df =>
      if df.rows.length = 0 then .error (.xlerr (.emptyRange ref.original))
      else if df.columns.length = 0 then
        .error (.xlerr (.rangeResolution ref.original (some "range contains no columns")))
      else .ok df

/-! ## output.py -/

/-- Excel's hard row limit. -/
def EXCEL_MAX_ROWS : Nat := 1048576

/-- Excel's hard column limit. -/
def EXCEL_MAX_COLS : Nat := 16384

/-- Soft advisory row limit. -/
def RECOMMENDED_MAX_ROWS : Nat := 100000

/-- Insert thousands separators into a reversed digit list. -/
def commaRev : List Char → List Char
  | a :: b :: c :: d :: rest => a :: b :: c :: ',' :: commaRev (d :: rest)
  | l => l

/-- Python's `f"{n:,}"` for naturals. -/
def commaFmt (n : Nat) : String :=
  String.mk ((commaRev (toString n).data.reverse).reverse)

/-- `check_output_limits` from `output.py`. -/
def check_output_limits (r : ExecutionResult) : Option String :=
  let rowCount := r.rows.length
  let colCount := r.columns.length
  if rowCount > EXCEL_MAX_ROWS then
    some ("Result has " ++ commaFmt rowCount ++ " rows, exceeding Excel's limit of " ++
      commaFmt EXCEL_MAX_ROWS ++ ". Use LIMIT clause to reduce output.")
  else if colCount > EXCEL_MAX_COLS then
    some ("Result has " ++ commaFmt colCount ++ " columns, exceeding Excel's limit of " ++
      commaFmt EXCEL_MAX_COLS ++ ".")
  else if rowCount > RECOMMENDED_MAX_ROWS then
    some ("Warning: Result has " ++ commaFmt rowCount ++ " rows. Large outputs may " ++
      "impact Excel performance. Consider using LIMIT clause.")
  else none

/-- The per-column conversion decision of `convert_types_for_excel`. -/
inductive ColCast where
  | keep
  | toInt64
  | toFloat
deriving DecidableEq, Repr

/-- Decide the cast for one column of cells. -/
def colCastFor (col : List Cell) : ColCast :=
  let nonNull := col.filter (fun c => c ≠ Cell.null)
  if nonNull.isEmpty then .keep
  else if nonNull.all (fun c => c.isNumeric && c.isWhole) then .toInt64
  else if nonNull.all Cell.isNumeric then .toFloat
  else .keep

/-- Apply a cast to one cell. -/
def applyCast : ColCast → Cell → Cell
  | .keep, c => c
  | .toInt64, c =>
      match c with
      | .null => .null
      | .int k => .int k
      | .real q => .int q.num
      | .bool b => .int (if b then 1 else 0)
      | .text s => .text s
  | .toFloat, c =>
      match c with
      | .null => .null
      | .int k => .real (Rat.ofInt k)
      | .real q => .real q
      | .bool b => .real (if b then 1 else 0)
      | .text s => .text s

/-- `convert_types_for_excel` from `output.py`: whole-valued numeric
columns become nullable integers, numeric columns become floats, others
are kept as-is. -/
def convert_types_for_excel (df : DataFrame) : DataFrame :=
  let casts := (List.range df.columns.length).map
      (fun j => colCastFor (df.rows.map (fun row => row.getD j Cell.null)))
  { df with rows := df.rows.map (fun row =>
      row.mapIdx (fun j c => applyCast (casts.getD j .keep) c)) }

/-- `format_result` from `output.py`. -/
def format_result (r : ExecutionResult) : DataFrame :=
  if r.columns.isEmpty ∨ r.rows.isEmpty then
    if r.query_type = "INSERT" ∨ r.query_type = "UPDATE" ∨ r.query_type = "DELETE" then
      ⟨["Result"], [[Cell.text (toString r.rowcount ++ " rows affected")]]⟩
    else if r.query_type = "CREATE" ∨ r.query_type = "DROP" then
      ⟨["Result"], [[Cell.text "OK"]]⟩
    else ⟨[], []⟩
  else convert_types_for_excel ⟨r.columns, r.rows⟩

/-! ## main.py -/

/-- The branch condition of `main.py` line 141: `';' in query` — plain
containment over the original query text. -/
def multiStatementDispatch (query : String) : Bool := query.data.contains ';'

/-- Steps 148-155 of `_execute_sqlite`: run `check_output_limits`; a warning
containing `exceeding` is the hard-limit case and raises
`SQLiteExcelError(warning)`; otherwise the result is shaped. -/
def outputLimitGate (r : ExecutionResult) : Except PyError DataFrame :=
  match check_output_limits r with
  | some w =>
      if containsSubstr w "exceeding" then .error (.xlerr (.raw w))
      else .ok (format_result r)
  | none => .ok (format_result r)

/-- The per-reference loop of `_execute_sqlite`: resolve via the host,
build the schema, load the table, and extend the `original → sqlite_name`
mapping in order. -/
def loadRefs {σ : Type} (env : Env σ) :
    List TableReference → σ → List (String × String) →
    Except PyError (σ × List (String × String))
  | [], st, m => .ok (st, m)
  | ref :: rest, st, m => do
      let df ← resolve_reference env ref
      let schema ← build_table_schema df ref.sqlite_name
      let st2 ← (env.loadTable st schema df).mapError PyError.engine
      loadRefs env rest st2 (m ++ [(ref.original, ref.sqlite_name)])

/-- `_execute_sqlite` from `main.py`: validate, extract, load, rewrite,
execute (single- or multi-statement), check limits, shape. -/
def execute_sqlite {σ : Type} (env : Env σ) (query : String) (params : List Cell) :
    Except PyError DataFrame := do
  if trimStr query = "" then
    throw (.xlerr (.querySyntax none (some "empty query")))
  if params ≠ [] then
    let expected := count_parameters query
    if params.length ≠ expected then
      throw (.xlerr (.querySyntax none (some ("expected " ++ toString expected ++
        " parameters, got " ++ toString params.length))))
  let refs := extract_table_references query
  let (st, mapping) ← loadRefs env refs env.init []
  let rewritten := substitute_references query mapping
  let stres ←
    if multiStatementDispatch query then execute_multiple_statements env st rewritten
    else execute_query env st rewritten params
  outputLimitGate stres.2

/-- What a `SQLITE(...)` cell formula receives: a table or an error text. -/
inductive SQLITEResult where
  | table (df : DataFrame)
  | errstr (s : String)
deriving DecidableEq, Repr

/-- The exception handlers of `SQLITE`: a `SQLiteExcelError` is returned as
its string form (`str(e)`), any other exception is normalized by
`format_error_for_excel`. -/
def renderOutcome : Except PyError DataFrame → SQLITEResult
  | .ok df => .table df
  | .error (.xlerr e) => .errstr (renderError e)
  | .error (.engine e) => .errstr (format_error_for_excel (.engine e))

/-- `SQLITE` from `main.py`: run the pipeline and render the outcome. -/
def SQLITE {σ : Type} (env : Env σ) (query : String) (params : List Cell) :
    SQLITEResult :=
  renderOutcome (execute_sqlite env query params)

/-! ## Auxiliary environments and spec-side comparison definitions -/

/-- Environment for the C2 counterexample: a one-cell result for any
statement. -/
def envC2 : Env Unit :=
  { init := ()
    exec := fun _ _ _ => .ok ((), ⟨some ["c"], [[Cell.int 1]], 0, none⟩)
    loadTable := fun s _ _ => .ok s
    xl := fun _ => .noneReturned }

/-- Environment for the C3 counterexample: the engine reports how many
parameters were bound to it. -/
def envC3 : Env Unit :=
  { init := ()
    exec := fun _ _ ps => .ok ((), ⟨some ["n"], [[Cell.int (Int.ofNat ps.length)]], 0, none⟩)
    loadTable := fun s _ _ => .ok s
    xl := fun _ => .noneReturned }

/-- Follows the spec's words (§4.6 step 7): the query contains a `;`
outside string literals, with the literal tracking of §4.4 (single and
double quotes, doubled-quote escape). -/
def semiOutsideAux : List Char → Option Char → Bool
  | [], _ => false
  | c :: rest, none =>
      if c = '\'' ∨ c = '"' then semiOutsideAux rest (some c)
      else if c = ';' then true
      else semiOutsideAux rest none
  | [_], some _ => false
  | c :: c2 :: rest2, some sc =>
      if c = sc then
        if c2 = sc then semiOutsideAux rest2 (some sc)
        else semiOutsideAux (c2 :: rest2) none
      else semiOutsideAux (c2 :: rest2) (some sc)

/-- The spec-side dispatch condition: a semicolon outside string literals. -/
def semicolonOutsideLiterals (query : String) : Bool :=
  semiOutsideAux query.data none

/-- The trimmed-uppercased first word of a statement. -/
def firstWordU (query : String) : String :=
  String.mk ((stripUpper query).data.takeWhile (fun c => !(wsChar c)))

/-- The statement kinds `detect_query_type` recognizes, in the order the
source checks them. -/
def recognizedKinds : List String :=
  ["SELECT", "INSERT", "UPDATE", "DELETE", "CREATE", "DROP", "PRAGMA", "EXPLAIN"]

/-- An engine returning a fixed row list for any statement (used to drive
the output-limit path of C6). -/
def envRows (rows : List (List Cell)) : Env Unit :=
  { init := ()
    exec := fun _ _ _ => .ok ((), ⟨some ["c"], rows, 0, none⟩)
    loadTable := fun s _ _ => .ok s
    xl := fun _ => .noneReturned }

/-- A result with more rows than the Excel hard limit. -/
def bigRows : List (List Cell) := List.replicate 1048577 []

/-! ## Theorems -/

/-- Claim C1: every invocation `SQLITE(query, params...)` returns a value
and never raises — on success a tabular value, and on every failure a
string that starts with `Error: ` (the canonical rendering of the failure
kind). -/
theorem spec_c1_sqlite_total (σ : Type) (env : Env σ) (query : String)
    (params : List Cell) :
    (∃ df, SQLITE env query params = .table df) ∨
    (∃ body, SQLITE env query params = .errstr ("Error: " ++ body)) := by
  cases h : execute_sqlite env query params with
  | ok df => exact Or.inl ⟨df, by simp [SQLITE, renderOutcome, h]⟩
  | error pe =>
      cases pe with
      | xlerr e =>
          exact Or.inr ⟨e.body, by simp [SQLITE, renderOutcome, h, renderError]⟩
      | engine e =>
          exact Or.inr ⟨(normalize_sqlite_error e).body,
            by simp [SQLITE, renderOutcome, h, format_error_for_excel, renderError]⟩

/-- Claim C10: a row-producing execution result with column names but zero
rows is shaped into a completely empty table — the column names are dropped
and the output has no columns at all. -/
theorem spec_c10_zero_rows_empty_table (r : ExecutionResult)
    (hqt : r.query_type = "SELECT" ∨ r.query_type = "PRAGMA" ∨ r.query_type = "EXPLAIN")
    (hcols : r.columns ≠ []) (hrows : r.rows = []) :
    format_result r = ⟨[], []⟩ := by
  rcases hqt with h | h | h <;>
    simp [format_result, hrows, h]

/-- Witness for C10 at a concrete result. -/
theorem spec_c10_witness :
    format_result ⟨["a"], [], 0, none, "SELECT"⟩ = ⟨[], []⟩ :=
  spec_c10_zero_rows_empty_table ⟨["a"], [], 0, none, "SELECT"⟩
    (Or.inl rfl) (by decide) rfl

/-- Claim C5 (failing input): on
`SELECT 1 /* FROM evil 'x */ 2 ' 3` the extractor produces the reference
`evil`, whose text lies inside the `/* ... */` block comment — the single
quote inside the comment derails the literal pass, which runs before
comment removal and blanks the comment's closing `*/`, so the comment
survives comment removal and contributes a reference. -/
theorem spec_c5_comment_contributes_reference :
    extract_table_references "SELECT 1 /* FROM evil 'x */ 2 ' 3" =
      [⟨"evil", none, some "evil", none, "evil"⟩] := by decide

/-- Claim C9 (counterexample): two distinct references extracted from one
query can share the same `sqlite_name`; derived names are not globally
unique. -/
theorem spec_c9_counterexample :
    extract_table_references "SELECT * FROM Orders JOIN orders" =
      [⟨"Orders", none, some "Orders", none, "orders"⟩,
       ⟨"orders", none, some "orders", none, "orders"⟩] ∧
    (⟨"Orders", none, some "Orders", none, "orders"⟩ : TableReference) ≠
      ⟨"orders", none, some "orders", none, "orders"⟩ ∧
    (⟨"Orders", none, some "Orders", none, "orders"⟩ : TableReference).sqlite_name =
      (⟨"orders", none, some "orders", none, "orders"⟩ : TableReference).sqlite_name := by
  refine ⟨by decide, by decide, rfl⟩

/-- Claim C2 (counterexample): `SELECT ?` has one `?` placeholder, yet the
invocation with zero supplied params does not fail with the QuerySyntax
parameter-count error — the count check is skipped entirely and the query
returns a table. -/
theorem spec_c2_counterexample :
    count_parameters "SELECT ?" = 1 ∧
    SQLITE envC2 "SELECT ?" [] = .table ⟨["c"], [[Cell.int 1]]⟩ ∧
    SQLITE envC2 "SELECT ?" [] ≠ .errstr "Error: expected 1 parameters, got 0" := by
  refine ⟨by decide, by decide, by decide⟩

/-- Claim C2 (amended): when at least one parameter is supplied and the
count differs from the number of `?` placeholders, the invocation fails
with the QuerySyntax error `expected N parameters, got M`; with zero
supplied parameters the check is skipped. -/
theorem spec_c2_param_count_mismatch (σ : Type) (env : Env σ) (query : String)
    (params : List Cell) (h1 : trimStr query ≠ "") (h2 : params ≠ [])
    (h3 : params.length ≠ count_parameters query) :
    SQLITE env query params = .errstr (renderError (.querySyntax none
      (some ("expected " ++ toString (count_parameters query) ++
        " parameters, got " ++ toString params.length)))) := by
  have hx : execute_sqlite env query params = .error (.xlerr (.querySyntax none
      (some ("expected " ++ toString (count_parameters query) ++
        " parameters, got " ++ toString params.length)))) := by
    unfold execute_sqlite
    rw [if_neg h1, if_pos h2, if_pos h3]
    rfl
  simp [SQLITE, renderOutcome, hx]

/-- Witness for the amended C2 at a concrete invocation. -/
theorem spec_c2_witness :
    SQLITE envC2 "SELECT ?" [Cell.int 1, Cell.int 2] =
      .errstr "Error: expected 1 parameters, got 2" := by
  have h := spec_c2_param_count_mismatch Unit envC2 "SELECT ?"
    [Cell.int 1, Cell.int 2] (by decide) (by decide) (by decide)
  rw [h]
  decide

/-- Claim C3 (counterexample): `SELECT 'a;b' WHERE x = ?` has its only
semicolon inside a string literal, so per the claim the single-statement
branch should run with the supplied parameter bound.  Instead the plain
`';' in query` test dispatches to multi-statement execution, which binds no
parameters: the engine sees zero parameters, not one. -/
theorem spec_c3_counterexample :
    semicolonOutsideLiterals "SELECT 'a;b' WHERE x = ?" = false ∧
    SQLITE envC3 "SELECT 'a;b' WHERE x = ?" [Cell.int 7] =
      .table ⟨["n"], [[Cell.int 0]]⟩ ∧
    SQLITE envC3 "SELECT 'a;b' WHERE x = ?" [Cell.int 7] ≠
      .table ⟨["n"], [[Cell.int 1]]⟩ := by
  refine ⟨by decide, by decide, by decide⟩

theorem semiOutsideAux_mem : ∀ (l : List Char) (st : Option Char),
    semiOutsideAux l st = true → ';' ∈ l
  | [], st => by simp [semiOutsideAux]
  | c :: rest, none => by
      rw [semiOutsideAux]
      by_cases hq : c = '\'' ∨ c = '"'
      · rw [if_pos hq]
        intro h
        exact List.mem_cons_of_mem c (semiOutsideAux_mem rest (some c) h)
      · rw [if_neg hq]
        by_cases hs : c = ';'
        · intro _
          simp [hs]
        · rw [if_neg hs]
          intro h
          exact List.mem_cons_of_mem c (semiOutsideAux_mem rest none h)
  | [c], some sc => by simp [semiOutsideAux]
  | c :: c2 :: rest2, some sc => by
      rw [semiOutsideAux]
      by_cases h1 : c = sc
      · rw [if_pos h1]
        by_cases h2 : c2 = sc
        · rw [if_pos h2]
          intro h
          exact List.mem_cons_of_mem c
            (List.mem_cons_of_mem c2 (semiOutsideAux_mem rest2 (some sc) h))
        · rw [if_neg h2]
          intro h
          exact List.mem_cons_of_mem c (semiOutsideAux_mem (c2 :: rest2) none h)
      · rw [if_neg h1]
        intro h
        exact List.mem_cons_of_mem c (semiOutsideAux_mem (c2 :: rest2) (some sc) h)

/-- Claim C3 (amended): `SQLITE` dispatches to multi-statement execution iff
the query contains a `;` character anywhere — in particular every query with
a `;` outside string literals dispatches to multi-statement execution, but
so does a query whose only semicolons lie inside string literals (and the
multi-statement branch binds no parameters). -/
theorem spec_c3_dispatch_on_any_semicolon (query : String) :
    multiStatementDispatch query = query.data.contains ';' ∧
    (semicolonOutsideLiterals query = true → multiStatementDispatch query = true) := by
  constructor
  · rfl
  · intro h
    have hm : ';' ∈ query.data := semiOutsideAux_mem query.data none h
    simp only [multiStatementDispatch, List.contains_eq_any_beq, List.any_eq_true]
    exact ⟨';', hm, rfl⟩

/-- Witness for the amended C3 at a concrete query. -/
theorem spec_c3_witness :
    multiStatementDispatch "SELECT 1; SELECT 2" = true :=
  (spec_c3_dispatch_on_any_semicolon "SELECT 1; SELECT 2").2 (by decide)

theorem ciPrefix_eq (o : List Char) : ∀ (s : List Char),
    ciPrefix o s = (decide (o.length ≤ s.length) &&
      decide ((s.take o.length).map Char.toLower = o.map Char.toLower)) := by
  induction o with
  | nil => intro s; simp [ciPrefix]
  | cons a as ih =>
      intro s
      cases s with
      | nil => simp [ciPrefix]
      | cons b bs =>
          simp only [ciPrefix, ih bs, List.take_succ_cons, List.map_cons,
            List.length_cons]
          by_cases hab : a.toLower = b.toLower
          · by_cases hlen : as.length ≤ bs.length
            · by_cases htl : (bs.take as.length).map Char.toLower =
                  as.map Char.toLower
              · simp [hab, hlen, htl]
              · simp [hab, hlen, htl]
            · simp [hab, hlen]
          · have hR : decide ((b.toLower :: (bs.take as.length).map Char.toLower)
                = a.toLower :: as.map Char.toLower) = false := by
              apply decide_eq_false
              intro h
              exact hab (by injection h with h1 _; exact h1.symm)
            rw [decide_eq_false hab, hR]
            simp

theorem head?_drop_eq (l : List Char) (i : Nat) : (l.drop i).head? = l.get? i := by
  rw [← List.get?_zero]
  simpa using List.get?_drop l i 0

theorem matchesHere_eq_occursAtB (useB : Bool) (o l : List Char) (i : Nat)
    (hi : i < l.length) :
    matchesHere useB o (if i = 0 then none else l.get? (i - 1)) (l.drop i) =
      occursAtB useB o l i := by
  cases o with
  | nil => simp [matchesHere, occursAtB]
  | cons a as =>
      unfold matchesHere occursAtB
      rw [ciPrefix_eq]
      rw [head?_drop_eq, List.get?_drop, List.get?_drop]
      have hlen : (l.drop i).length = l.length - i := List.length_drop i l
      have h1 : decide ((a :: as).length ≤ (l.drop i).length) =
          decide (i + (a :: as).length ≤ l.length) := by
        rw [decide_eq_decide, hlen]
        omega
      have h2 : i + ((a :: as).length - 1) = i + (a :: as).length - 1 := by
        simp only [List.length_cons]
        omega
      rw [h1, h2]
      simp [Bool.and_assoc]

theorem rtcAux_eq_spec (o n : List Char) (useB : Bool) (l : List Char) :
    ∀ (fuel i : Nat),
      rtcAux o n useB fuel (if i = 0 then none else l.get? (i - 1)) (l.drop i) =
        specSubAux o n useB l fuel i := by
  intro fuel
  induction fuel with
  | zero => intro i; rfl
  | succ f ih =>
      intro i
      by_cases hi : i < l.length
      · have hm := matchesHere_eq_occursAtB useB o l i hi
        rw [specSubAux, dif_pos hi]
        rw [List.drop_eq_get_cons hi] at hm ⊢
        rw [rtcAux]
        rw [hm]
        by_cases ho : occursAtB useB o l i = true
        · rw [if_pos ho, if_pos ho]
          have hone : ¬ o.isEmpty := by
            intro he
            rw [occursAtB, he] at ho
            simp at ho
          have holen : 1 ≤ o.length := by
            cases o with
            | nil => exact absurd rfl hone
            | cons _ _ => simp
          congr 1
          have hprev : (l.get ⟨i, hi⟩ :: l.drop (i + 1)).get? (o.length - 1) =
              l.get? (i + o.length - 1) := by
            rw [← List.drop_eq_get_cons hi, List.get?_drop]
            congr 1
            omega
          have hsubj : (l.get ⟨i, hi⟩ :: l.drop (i + 1)).drop o.length =
              l.drop (i + o.length) := by
            rw [← List.drop_eq_get_cons hi, List.drop_drop]
          rw [hprev, hsubj]
          have := ih (i + o.length)
          rw [if_neg (by omega : ¬ i + o.length = 0)] at this
          have harg : i + o.length - 1 = i + o.length - 1 := rfl
          exact this
        · rw [if_neg ho, if_neg ho]
          congr 1
          have := ih (i + 1)
          rw [if_neg (by omega : ¬ i + 1 = 0)] at this
          have hsome : l.get? (i + 1 - 1) = some (l.get ⟨i, hi⟩) := by
            simp only [Nat.add_sub_cancel]
            exact List.get?_eq_get hi
          rw [hsome] at this
          exact this
      · have hd : l.drop i = [] := List.drop_eq_nil_of_le (by omega)
        rw [hd, specSubAux, dif_neg hi]
        rfl

/-- One implementation pass equals one spec-side textual pass. -/
theorem pass_eq_spec (res : String) (p : String × String) :
    String.mk (rtcAux p.1.data p.2.data (!(p.1.data.contains '\''))
      res.data.length none res.data) = tokenPassSpec p.1 p.2 res := by
  unfold tokenPassSpec
  congr 1
  have h := rtcAux_eq_spec p.1.data p.2.data (!(p.1.data.contains '\''))
    res.data res.data.length 0
  rw [if_pos rfl, List.drop_zero] at h
  exact h

/-- Claim C4 (counterexample): with the mapping `Orders → orders` the
rewriter also replaces the occurrence of `Orders` inside the string literal
`'Orders'` — replacements fire inside string-literal spans; and with the
mapping `Data → t1, t1 → t2` the entry `t1 → t2` rewrites the `t1` that the
first entry produced, so the passes are sequential over the then-current
text, not simultaneous over the original query. -/
theorem spec_c4_counterexample :
    (substitute_references "SELECT * FROM Orders WHERE name = 'Orders'"
        [("Orders", "orders")] =
      "SELECT * FROM orders WHERE name = 'orders'" ∧
    ("SELECT * FROM orders WHERE name = 'orders'" : String) ≠
      "SELECT * FROM orders WHERE name = 'Orders'") ∧
    (substitute_references "SELECT * FROM Data" [("Data", "t1"), ("t1", "t2")] =
      "SELECT * FROM t2" ∧
    ("SELECT * FROM t2" : String) ≠ "SELECT * FROM t1") := by
  refine ⟨⟨by decide, by decide⟩, by decide, by decide⟩

/-- Claim C4 (amended): the rewrite is purely textual — one pass per
mapping entry over the then-current text, longest original first, each
pass replacing every case-insensitive whole-token occurrence of its
original (no boundary requirement for quoted originals) and changing
nothing else. -/
theorem spec_c4_replacement_is_textual (query : String)
    (mapping : List (String × String)) :
    substitute_references query mapping =
      (sortByLenDesc mapping).foldl
        (fun res p => tokenPassSpec p.1 p.2 res) query := by
  unfold substitute_references
  by_cases hm : mapping.isEmpty
  · rw [if_pos hm]
    have hnil : sortByLenDesc mapping = [] := by
      cases mapping with
      | nil => rfl
      | cons a as => simp [List.isEmpty] at hm
    rw [hnil]
    rfl
  · rw [if_neg hm]
    exact List.foldl_ext _ _ query (fun res p _ => pass_eq_spec res p)

/-- Claim C8 (counterexample): three inputs on which `detect_query_type`
departs from the claimed reading.  A `WITH` statement whose main statement
is a `DELETE` (and which contains no `SELECT`) is classified `OTHER`, not
`DELETE` — the `WITH` branch only ever looks for `SELECT`.  `SELECTX 1`,
whose first word `SELECTX` is not a recognized kind (so the claim says
`OTHER`), is classified `SELECT` — the non-`WITH` branch tests
`startswith`, not the first word.  `WITHX SELECT`, whose first word is not
`WITH` and not a recognized kind (so the claim says `OTHER`), takes the
`WITH` branch via `startswith("WITH")` and is classified `SELECT`. -/
theorem spec_c8_counterexample :
    (detect_query_type "WITH c AS (VALUES (1)) DELETE FROM t" = "OTHER" ∧
      ("OTHER" : String) ≠ "DELETE") ∧
    (detect_query_type "SELECTX 1" = "SELECT" ∧
      firstWordU "SELECTX 1" = "SELECTX" ∧
      "SELECTX" ∉ recognizedKinds ∧ ("SELECT" : String) ≠ "OTHER") ∧
    (detect_query_type "WITHX SELECT" = "SELECT" ∧
      firstWordU "WITHX SELECT" = "WITHX" ∧ ("WITHX" : String) ≠ "WITH" ∧
      "WITHX" ∉ recognizedKinds ∧ ("SELECT" : String) ≠ "OTHER") := by
  exact ⟨⟨by decide, by decide⟩,
    ⟨by decide, by decide, by decide, by decide⟩,
    ⟨by decide, by decide, by decide, by decide, by decide⟩⟩

/-- Claim C8 (amended): if the trimmed-uppercased statement starts with
`WITH`, `detect_query_type` returns `SELECT` when `SELECT` occurs anywhere
in it and `OTHER` otherwise; for other statements it returns the first word
when that word is a recognized kind, and `OTHER` when the statement starts
with none of the recognized keywords. -/
theorem spec_c8_detect_query_type (query : String) :
    (strStarts (stripUpper query) "WITH" = true →
      detect_query_type query =
        (if containsSubstr (stripUpper query) "SELECT" then "SELECT" else "OTHER")) ∧
    (∀ K ∈ recognizedKinds, firstWordU query = K → detect_query_type query = K) ∧
    (strStarts (stripUpper query) "WITH" = false →
      (∀ K ∈ recognizedKinds, strStarts (stripUpper query) K = false) →
      detect_query_type query = "OTHER") := by
  refine ⟨?_, ?_, ?_⟩
  · intro h
    simp [detect_query_type, h]
  · intro K hK hF
    have hF2 : (stripUpper query).data.takeWhile (fun c => !(wsChar c)) = K.data := by
      have := congrArg String.data hF
      simpa [firstWordU] using this
    have hs : (stripUpper query).data = K.data ++
        (stripUpper query).data.dropWhile (fun c => !(wsChar c)) := by
      rw [← hF2]
      exact (List.takeWhile_append_dropWhile _ _).symm
    simp only [recognizedKinds, List.mem_cons, List.not_mem_nil, or_false] at hK
    rcases hK with rfl | rfl | rfl | rfl | rfl | rfl | rfl | rfl <;>
      [skip; skip; skip; skip; skip; skip; skip; skip] <;>
      (obtain ⟨rest, hs2⟩ : ∃ r, (stripUpper query).data = _ ++ r := ⟨_, hs⟩
       clear hs hF2 hF
       simp only [detect_query_type, strStarts, hs2]
       simp [List.isPrefixOf])
  · intro hW hall
    have h1 := hall "SELECT" (by simp [recognizedKinds])
    have h2 := hall "INSERT" (by simp [recognizedKinds])
    have h3 := hall "UPDATE" (by simp [recognizedKinds])
    have h4 := hall "DELETE" (by simp [recognizedKinds])
    have h5 := hall "CREATE" (by simp [recognizedKinds])
    have h6 := hall "DROP" (by simp [recognizedKinds])
    have h7 := hall "PRAGMA" (by simp [recognizedKinds])
    have h8 := hall "EXPLAIN" (by simp [recognizedKinds])
    simp [detect_query_type, hW, h1, h2, h3, h4, h5, h6, h7, h8]

/-- Witness for the amended C8 at concrete statements. -/
theorem spec_c8_witness :
    detect_query_type "DELETE FROM t" = "DELETE" :=
  (spec_c8_detect_query_type "DELETE FROM t").2.1 "DELETE"
    (by simp [recognizedKinds]) (by decide)


theorem listInfix_append_left (sub l1 l2 : List Char)
    (h : listInfix sub l2 = true) : listInfix sub (l1 ++ l2) = true := by
  induction l1 with
  | nil => simpa using h
  | cons c rest ih =>
      simp only [List.cons_append, listInfix, Bool.or_eq_true]
      exact Or.inr ih

theorem c6_exec_general (rows : List (List Cell)) :
    execute_sqlite (envRows rows) "SELECT 1" [] =
      outputLimitGate ⟨["c"], rows, Int.ofNat rows.length, none, "SELECT"⟩ := by
  unfold execute_sqlite
  have htrim : ¬ (trimStr "SELECT 1" = "") := by decide
  have hex : extract_table_references "SELECT 1" = [] := by decide
  rw [if_neg htrim, hex]
  rfl

theorem outputLimitGate_rows_exceeded (r : ExecutionResult)
    (h : r.rows.length > EXCEL_MAX_ROWS) :
    outputLimitGate r = .error (.xlerr (.raw
      ("Result has " ++ commaFmt r.rows.length ++
        " rows, exceeding Excel's limit of " ++ commaFmt EXCEL_MAX_ROWS ++
        ". Use LIMIT clause to reduce output."))) := by
  unfold outputLimitGate check_output_limits
  rw [if_pos h]
  have hsub : containsSubstr
      ("Result has " ++ commaFmt r.rows.length ++
        " rows, exceeding Excel's limit of " ++ commaFmt EXCEL_MAX_ROWS ++
        ". Use LIMIT clause to reduce output.") "exceeding" = true := by
    unfold containsSubstr
    simp only [String.data_append, List.append_assoc]
    apply listInfix_append_left
    apply listInfix_append_left
    have hbase : listInfix "exceeding".data
        (" rows, exceeding Excel's limit of ".data ++
          ((commaFmt EXCEL_MAX_ROWS).data ++
            ". Use LIMIT clause to reduce output.".data)) = true := by decide
    exact hbase
  simp [hsub]

theorem outputLimitGate_cols_exceeded (r : ExecutionResult)
    (h1 : r.rows.length ≤ EXCEL_MAX_ROWS) (h2 : r.columns.length > EXCEL_MAX_COLS) :
    outputLimitGate r = .error (.xlerr (.raw
      ("Result has " ++ commaFmt r.columns.length ++
        " columns, exceeding Excel's limit of " ++ commaFmt EXCEL_MAX_COLS ++
        "."))) := by
  unfold outputLimitGate check_output_limits
  rw [if_neg (by omega : ¬ r.rows.length > EXCEL_MAX_ROWS), if_pos h2]
  have hsub : containsSubstr
      ("Result has " ++ commaFmt r.columns.length ++
        " columns, exceeding Excel's limit of " ++ commaFmt EXCEL_MAX_COLS ++
        ".") "exceeding" = true := by
    unfold containsSubstr
    simp only [String.data_append, List.append_assoc]
    apply listInfix_append_left
    apply listInfix_append_left
    have hbase : listInfix "exceeding".data
        (" columns, exceeding Excel's limit of ".data ++
          ((commaFmt EXCEL_MAX_COLS).data ++ ".".data)) = true := by decide
    exact hbase
  simp [hsub]

/-- Claim C6 (amended): a result exceeding 1,048,576 rows (or, with rows in
range, 16,384 columns) makes the invocation fail with the `main.py`
hard-limit error — rendered from the warning string of
`check_output_limits`, with comma-grouped counts — and the result is never
shaped into a (truncated) table. -/
theorem spec_c6_output_limit (r : ExecutionResult) :
    (r.rows.length > EXCEL_MAX_ROWS →
      outputLimitGate r = .error (.xlerr (.raw
        ("Result has " ++ commaFmt r.rows.length ++
          " rows, exceeding Excel's limit of " ++ commaFmt EXCEL_MAX_ROWS ++
          ". Use LIMIT clause to reduce output.")))) ∧
    (r.rows.length ≤ EXCEL_MAX_ROWS → r.columns.length > EXCEL_MAX_COLS →
      outputLimitGate r = .error (.xlerr (.raw
        ("Result has " ++ commaFmt r.columns.length ++
          " columns, exceeding Excel's limit of " ++ commaFmt EXCEL_MAX_COLS ++
          ".")))) :=
  ⟨fun h => outputLimitGate_rows_exceeded r h,
   fun h1 h2 => outputLimitGate_cols_exceeded r h1 h2⟩

/-- Claim C6 (counterexample): a result of 1,048,577 rows makes the
invocation fail, but the returned text is the `main.py` warning string, not
the canonical `OutputLimit` rendering of `errors.py` (whose class is never
instantiated by the pipeline). -/
theorem spec_c6_counterexample :
    SQLITE (envRows bigRows) "SELECT 1" [] = .errstr
      "Error: Result has 1,048,577 rows, exceeding Excel's limit of 1,048,576. Use LIMIT clause to reduce output." ∧
    ("Error: Result has 1,048,577 rows, exceeding Excel's limit of 1,048,576. Use LIMIT clause to reduce output." : String) ≠
      renderError (.outputLimit 1048577 1048576) := by
  constructor
  · have hlen : bigRows.length = 1048577 := List.length_replicate 1048577 []
    have hA : commaFmt bigRows.length = "1,048,577" :=
      (congrArg commaFmt hlen).trans (by decide)
    have hB : commaFmt EXCEL_MAX_ROWS = "1,048,576" := by decide
    have hgate2 : outputLimitGate
        ⟨["c"], bigRows, Int.ofNat bigRows.length, none, "SELECT"⟩ =
        .error (.xlerr (.raw ("Result has " ++ commaFmt bigRows.length ++
          " rows, exceeding Excel's limit of " ++ commaFmt EXCEL_MAX_ROWS ++
          ". Use LIMIT clause to reduce output."))) :=
      outputLimitGate_rows_exceeded
        ⟨["c"], bigRows, Int.ofNat bigRows.length, none, "SELECT"⟩
        (by show bigRows.length > EXCEL_MAX_ROWS
            rw [hlen]
            decide)
    simp only [hA, hB] at hgate2
    have hx : execute_sqlite (envRows bigRows) "SELECT 1" [] =
        .error (.xlerr (.raw
          ("Result has " ++ "1,048,577" ++ " rows, exceeding Excel's limit of " ++
            "1,048,576" ++ ". Use LIMIT clause to reduce output."))) := by
      rw [c6_exec_general bigRows]
      exact hgate2
    show renderOutcome (execute_sqlite (envRows bigRows) "SELECT 1" []) = _
    rw [hx]
    rfl
  · decide

/-- Witness for the amended C6 at a concrete oversized result. -/
theorem spec_c6_witness :
    outputLimitGate ⟨["c"], bigRows, Int.ofNat bigRows.length, none, "SELECT"⟩ =
      .error (.xlerr (.raw
        ("Result has " ++ commaFmt bigRows.length ++
          " rows, exceeding Excel's limit of " ++ commaFmt EXCEL_MAX_ROWS ++
          ". Use LIMIT clause to reduce output."))) :=
  (spec_c6_output_limit ⟨["c"], bigRows, Int.ofNat bigRows.length, none, "SELECT"⟩).1
    (by show bigRows.length > EXCEL_MAX_ROWS
        rw [show bigRows.length = 1048577 from List.length_replicate 1048577 []]
        decide)

theorem contains_middle (a x : String) (l1 l2 : List String) :
    (l1 ++ x :: l2).contains a = (x :: (l1 ++ l2)).contains a := by
  induction l1 with
  | nil => rfl
  | cons y ys ih =>
      simp only [List.cons_append, List.contains_cons, ih, Bool.or_left_comm]

theorem validateAux_ok_iff (hs : List (Option String)) :
    ∀ (seen : List String) (i : Nat),
    (∃ v, validateAux seen hs i = .ok v) ↔
      ((∀ h ∈ hs, entryEmpty h = false) ∧ (hs.map entryKey).Nodup ∧
        ∀ k ∈ hs.map entryKey, k ∉ seen) := by
  induction hs with
  | nil => intro seen i; simp [validateAux]
  | cons h rest ih =>
      intro seen i
      match h with
      | none =>
          simp [validateAux, entryEmpty]
      | some s =>
          by_cases he : trimStr s = ""
          · simp [validateAux, he, entryEmpty]
          · by_cases hc : seen.contains (lowerStr (trimStr s))
            · have hcm : lowerStr (trimStr s) ∈ seen := List.elem_iff.mp hc
              constructor
              · intro ⟨v, hv⟩
                rw [show validateAux seen (some s :: rest) i =
                    .error (.duplicateColumn (trimStr s)) by
                  simp only [validateAux, if_neg he, if_pos hc]] at hv
                exact absurd hv (by simp)
              · rintro ⟨-, -, h3⟩
                exact absurd hcm (h3 (lowerStr (trimStr s))
                  (by simp [entryKey]))
            · have hcm : lowerStr (trimStr s) ∉ seen := fun hm =>
                hc (List.elem_iff.mpr hm)
              have hstep : validateAux seen (some s :: rest) i =
                  match validateAux (lowerStr (trimStr s) :: seen) rest (i + 1) with
                  | .ok v => .ok (trimStr s :: v)
                  | .error e => .error e := by
                simp only [validateAux, if_neg he, if_neg hc]
              have hiff : (∃ v, validateAux seen (some s :: rest) i = .ok v) ↔
                  (∃ w, validateAux (lowerStr (trimStr s) :: seen) rest (i + 1)
                    = .ok w) := by
                simp only [hstep]
                cases hr : validateAux (lowerStr (trimStr s) :: seen) rest (i + 1) <;>
                  simp
              rw [hiff, ih (lowerStr (trimStr s) :: seen) (i + 1)]
              simp only [List.map_cons, List.nodup_cons, List.forall_mem_cons]
              constructor
              · rintro ⟨h1, h2, h3⟩
                refine ⟨⟨by simp [entryEmpty, he], h1⟩, ⟨?_, h2⟩, ?_, ?_⟩
                · intro hmem
                  have := h3 _ hmem
                  simp [entryKey] at this
                · simpa [entryKey] using hcm
                · intro k hk
                  have := h3 k hk
                  simp only [List.mem_cons] at this
                  push_neg at this
                  exact this.2
              · rintro ⟨⟨-, h1⟩, ⟨h2a, h2⟩, h3a, h3⟩
                refine ⟨h1, h2, ?_⟩
                intro k hk
                simp only [List.mem_cons]
                push_neg
                exact ⟨fun hke => h2a (by simpa [entryKey, ← hke] using hk),
                  h3 k hk⟩

theorem validateAux_err_first (hs : List (Option String)) :
    ∀ (seen : List String) (i j : Nat), j < hs.length →
    violRelAt seen hs j = true →
    (∀ j', j' < j → violRelAt seen hs j' = false) →
    validateAux seen hs i =
      (if entryEmpty (hs.getD j none) then
        .error (.emptyColumnName (some (i + j + 1)))
      else .error (.duplicateColumn (entryTrim (hs.getD j none)))) := by
  induction hs with
  | nil =>
      intro seen i j hj
      exact absurd hj (by simp)
  | cons h rest ih =>
      intro seen i j hj hv hmin
      match j with
      | 0 =>
          cases h with
          | none => simp [validateAux, entryEmpty]
          | some s =>
              by_cases he : trimStr s = ""
              · simp [validateAux, he, entryEmpty]
              · have hc : seen.contains (lowerStr (trimStr s)) = true := by
                  have := hv
                  simp [violRelAt, entryEmpty, entryKey, he] at this
                  simpa using this
                rw [List.getD_cons_zero, if_neg (by simp [entryEmpty, he])]
                simp only [validateAux, if_neg he, if_pos hc, entryTrim]
      | j' + 1 =>
          have h0 : violRelAt seen (h :: rest) 0 = false := hmin 0 (Nat.succ_pos j')
          cases h with
          | none => exact absurd h0 (by simp [violRelAt, entryEmpty])
          | some s =>
              have he : ¬ trimStr s = "" := by
                intro he
                simp [violRelAt, entryEmpty, he] at h0
              have hc : seen.contains (lowerStr (trimStr s)) = false := by
                have := h0
                simp [violRelAt, entryEmpty, entryKey, he] at this
                simpa using this
              have hc' : ¬ seen.contains (lowerStr (trimStr s)) = true := by
                rw [hc]
                simp
              have hshift : ∀ k, violRelAt seen (some s :: rest) (k + 1)
                  = violRelAt (lowerStr (trimStr s) :: seen) rest k := by
                intro k
                simp only [violRelAt, List.getD_cons_succ, List.take_succ_cons,
                  List.map_cons]
                rw [show entryKey (some s) = lowerStr (trimStr s) from rfl,
                  contains_middle]
                simp [List.cons_append]
              have hjlt : j' < rest.length := by
                simp only [List.length_cons] at hj
                omega
              have hrec := ih (lowerStr (trimStr s) :: seen) (i + 1) j' hjlt
                (by rw [← hshift]; exact hv)
                (fun j'' hlt => by rw [← hshift]; exact hmin (j'' + 1) (by omega))
              have hstep : validateAux seen (some s :: rest) i =
                  match validateAux (lowerStr (trimStr s) :: seen) rest (i + 1) with
                  | .ok v => .ok (trimStr s :: v)
                  | .error e => .error e := by
                simp only [validateAux, if_neg he, if_neg hc']
              simp only [List.getD_cons_succ]
              rw [hstep, hrec]
              by_cases hE : entryEmpty (rest.getD j' none) = true
              · rw [if_pos hE, if_pos hE]
                have h1 : i + 1 + j' + 1 = i + (j' + 1) + 1 := by omega
                rw [h1]
              · rw [if_neg hE, if_neg hE]

/-- C7: `validate_headers` accepts a header list iff no entry is empty after
trimming and no two entries compare equal case-insensitively; on rejection
it reports the first violating entry, as an `EmptyColumnNameError` carrying
the 1-based position or a `DuplicateColumnError` naming the first repeat
with its original (trimmed) casing. -/
theorem spec_c7_validate_headers (hs : List (Option String)) :
    ((∃ v, validate_headers hs = .ok v) ↔
      ((∀ h ∈ hs, entryEmpty h = false) ∧ (hs.map entryKey).Nodup))
    ∧ ∀ i, i < hs.length → violAt hs i = true →
        (∀ j, j < i → violAt hs j = false) →
        validate_headers hs =
          (if entryEmpty (hs.getD i none) then
            .error (.emptyColumnName (some (i + 1)))
          else .error (.duplicateColumn (entryTrim (hs.getD i none)))) := by
  constructor
  · have h := validateAux_ok_iff hs [] 0
    simpa [validate_headers] using h
  · intro i hi hv hmin
    have h := validateAux_err_first hs [] 0 i hi hv hmin
    simpa [validate_headers] using h

theorem spec_c7_witness :
    validate_headers [some "A", some " a "] = .error (.duplicateColumn "a") := by
  have h := (spec_c7_validate_headers [some "A", some " a "]).2 1 (by decide)
    (by decide) (by decide)
  exact h.trans rfl

theorem toNat_ofNat_valid (n : Nat) (h : n.isValidChar) :
    (Char.ofNat n).toNat = n := by
  simp only [Char.ofNat, dif_pos h]
  simp [Char.ofNatAux, Char.toNat, UInt32.toNat, BitVec.toNat_ofNatLt]

theorem toLower_toNat (d : Char) :
    (Char.toLower d).toNat =
      if 65 ≤ d.toNat ∧ d.toNat ≤ 90 then d.toNat + 32 else d.toNat := by
  unfold Char.toLower
  by_cases h : 65 ≤ d.toNat ∧ d.toNat ≤ 90
  · rw [if_pos ⟨h.1, h.2⟩, if_pos h]
    exact toNat_ofNat_valid _ (Or.inl (by omega))
  · rw [if_neg (by tauto), if_neg h]

theorem isUpper_eq (c : Char) :
    c.isUpper = (decide (65 ≤ c.toNat) && decide (c.toNat ≤ 90)) := rfl

theorem toLower_not_upper (d : Char) : (Char.toLower d).isUpper = false := by
  rw [isUpper_eq, toLower_toNat]
  by_cases h : 65 ≤ d.toNat ∧ d.toNat ≤ 90
  · rw [if_pos h]
    simp only [Bool.and_eq_false_iff, decide_eq_false_iff_not]
    omega
  · rw [if_neg h]
    simp only [Bool.and_eq_false_iff, decide_eq_false_iff_not]
    omega

theorem mem_collapseRuns (keep : Char → Bool) (l : List Char) :
    ∀ (b : Bool) (c : Char), c ∈ collapseRuns keep b l →
      (c ∈ l ∧ keep c = true) ∨ c = '_' := by
  induction l with
  | nil => intro b c hc; simp [collapseRuns] at hc
  | cons d rest ih =>
      intro b c hc
      simp only [collapseRuns] at hc
      by_cases hk : keep d
      · rw [if_pos hk] at hc
        rcases List.mem_cons.mp hc with h | h
        · subst h
          exact Or.inl ⟨List.mem_cons_self _ _, hk⟩
        · rcases ih false c h with ⟨h1, h2⟩ | h2
          · exact Or.inl ⟨List.mem_cons_of_mem d h1, h2⟩
          · exact Or.inr h2
      · rw [if_neg hk] at hc
        by_cases hb : b
        · rw [if_pos hb] at hc
          rcases ih true c hc with ⟨h1, h2⟩ | h2
          · exact Or.inl ⟨List.mem_cons_of_mem d h1, h2⟩
          · exact Or.inr h2
        · rw [if_neg hb] at hc
          rcases List.mem_cons.mp hc with h | h
          · exact Or.inr h
          · rcases ih true c h with ⟨h1, h2⟩ | h2
            · exact Or.inl ⟨List.mem_cons_of_mem d h1, h2⟩
            · exact Or.inr h2

theorem mem_stripUnderscores (l : List Char) (c : Char)
    (h : c ∈ stripUnderscores l) : c ∈ l := by
  simp only [stripUnderscores, List.mem_reverse] at h
  have h2 : c ∈ (l.dropWhile (fun c => c = '_')).reverse :=
    (List.dropWhile_sublist _).mem h
  rw [List.mem_reverse] at h2
  exact (List.dropWhile_sublist _).mem h2

theorem mem_sanitizePart (keep : Char → Bool) (s : String) (c : Char)
    (h : c ∈ sanitizePart keep s) :
    (keep c = true ∧ c.isUpper = false) ∨ c = '_' := by
  have h1 := mem_stripUnderscores _ _ h
  rcases mem_collapseRuns keep _ false c h1 with ⟨h2, h3⟩ | h2
  · rcases List.mem_map.mp h2 with ⟨d, -, hd⟩
    exact Or.inl ⟨h3, hd ▸ toLower_not_upper d⟩
  · exact Or.inr h2

theorem mem_joinUnderscore :
    ∀ (ps : List (List Char)) (c : Char), c ∈ joinUnderscore ps →
      (∃ p ∈ ps, c ∈ p) ∨ c = '_' := by
  intro ps
  induction ps with
  | nil => intro c hc; simp [joinUnderscore] at hc
  | cons p rest ih =>
      intro c hc
      match rest, hc with
      | [], hc => exact Or.inl ⟨p, List.mem_cons_self p [], hc⟩
      | q :: rest2, hc =>
          rw [joinUnderscore] at hc
          rcases List.mem_append.mp hc with h | h
          · exact Or.inl ⟨p, List.mem_cons_self _ _, h⟩
          · rcases List.mem_cons.mp h with h2 | h2
            · exact Or.inr h2
            · rcases ih c h2 with ⟨r, hr, hcr⟩ | h3
              · exact Or.inl ⟨r, List.mem_cons_of_mem p hr, hcr⟩
              · exact Or.inr h3

theorem mem_genParts (sheet table rng : Option String) (p : List Char)
    (h : p ∈ genParts sheet table rng) :
    (∃ s, p = sanitizePart reWordChar s) ∨
      (∃ s, p = sanitizePart (fun c => c.isAlphanum) s) := by
  simp only [genParts, List.mem_append] at h
  rcases h with (h | h) | h
  · left
    cases sheet with
    | none => simp at h
    | some s =>
        by_cases hs : s = "" <;> simp [hs] at h
        exact ⟨s, h⟩
  · left
    cases table with
    | none => simp at h
    | some s =>
        by_cases hs : s = "" <;> simp [hs] at h
        exact ⟨s, h⟩
  · right
    cases rng with
    | none => simp at h
    | some s =>
        by_cases hs : s = "" <;> simp [hs] at h
        exact ⟨s, h⟩

theorem generate_sqlite_name_eq (sheet table rng : Option String) :
    generate_sqlite_name sheet table rng =
      (match joinUnderscore (genParts sheet table rng) with
       | [] => "table_ref"
       | c :: tl =>
           if c.isDigit then String.mk ('r' :: '_' :: c :: tl)
           else String.mk (c :: tl)) := by
  unfold generate_sqlite_name
  cases joinUnderscore (genParts sheet table rng) with
  | nil => rfl
  | cons c tl => by_cases hd : c.isDigit <;> simp [hd, List.isEmpty_cons]

theorem generate_sqlite_name_wf (sheet table rng : Option String) :
    (generate_sqlite_name sheet table rng) ≠ "" ∧
    (∀ c ∈ (generate_sqlite_name sheet table rng).data, engineNameChar c = true) ∧
    (∀ c, (generate_sqlite_name sheet table rng).data.head? = some c →
      c.isDigit = false) := by
  have hchars : ∀ c ∈ joinUnderscore (genParts sheet table rng),
      engineNameChar c = true := by
    intro c hc
    rcases mem_joinUnderscore _ c hc with ⟨p, hp, hcp⟩ | h
    · rcases mem_genParts _ _ _ p hp with ⟨s, rfl⟩ | ⟨s, rfl⟩
      · rcases mem_sanitizePart _ _ _ hcp with ⟨h1, h2⟩ | h1
        · simp only [reWordChar, Bool.or_eq_true, decide_eq_true_eq] at h1
          rcases h1 with h1 | h1
          · simp [engineNameChar, h1, h2]
          · simp [engineNameChar, h1]
        · simp [engineNameChar, h1]
      · rcases mem_sanitizePart _ _ _ hcp with ⟨h1, h2⟩ | h1
        · simp [engineNameChar, h1, h2]
        · simp [engineNameChar, h1]
    · simp [engineNameChar, h]
  rw [generate_sqlite_name_eq]
  cases hn : joinUnderscore (genParts sheet table rng) with
  | nil =>
      refine ⟨by decide, by decide, by decide⟩
  | cons c0 tl =>
      have hc0 : ∀ c ∈ c0 :: tl, engineNameChar c = true := by
        rw [← hn]; exact hchars
      rw [show (match c0 :: tl with
          | [] => "table_ref"
          | c :: tl =>
              if c.isDigit then String.mk ('r' :: '_' :: c :: tl)
              else String.mk (c :: tl))
        = (if c0.isDigit then String.mk ('r' :: '_' :: c0 :: tl)
            else String.mk (c0 :: tl)) from rfl]
      by_cases hd : c0.isDigit
      · rw [if_pos hd]
        refine ⟨?_, ?_, ?_⟩
        · intro hc
          have := congrArg String.data hc
          simp at this
        · intro c hc
          rcases List.mem_cons.mp hc with h | h
          · subst h; decide
          · rcases List.mem_cons.mp h with h | h
            · subst h; decide
            · exact hc0 c h
        · intro c hc
          simp only [List.head?] at hc
          injection hc with h
          subst h
          decide
      · rw [if_neg hd]
        refine ⟨?_, ?_, ?_⟩
        · intro hc
          have := congrArg String.data hc
          simp at this
        · exact hc0
        · intro c hc
          simp only [List.head?] at hc
          injection hc with h
          subst h
          simpa using hd

theorem parse_reference_name (t : String) (r : TableReference)
    (h : parse_reference t = some r) :
    ∃ a b c, r.sqlite_name = generate_sqlite_name a b c := by
  unfold parse_reference at h
  split at h
  · exact absurd h (by simp)
  · dsimp only at h
    split at h
    · injection h with h'
      subst h'
      exact ⟨_, _, _, rfl⟩
    · split at h
      · injection h with h'
        subst h'
        exact ⟨_, _, _, rfl⟩
      · split at h
        · injection h with h'
          subst h'
          exact ⟨_, _, _, rfl⟩
        · injection h with h'
          subst h'
          exact ⟨_, _, _, rfl⟩

theorem mem_dedupeParse : ∀ (lst seen : List String) (r : TableReference),
    r ∈ dedupeParse lst seen → ∃ t, parse_reference t = some r := by
  intro lst
  induction lst with
  | nil => intro seen r h; simp [dedupeParse] at h
  | cons t rest ih =>
      intro seen r h
      rw [dedupeParse] at h
      by_cases hc : t ≠ "" ∧ ¬ (seen.contains t) = true
      · rw [if_pos hc] at h
        cases hp : parse_reference t with
        | some ref =>
            simp only [hp] at h
            rcases List.mem_cons.mp h with h2 | h2
            · exact ⟨t, by rw [hp, h2]⟩
            · exact ih _ r h2
        | none =>
            simp only [hp] at h
            exact ih _ r h
      · rw [if_neg hc] at h
        exact ih _ r h

/-- C9 amended: engine names of extracted references are well formed. -/
theorem spec_c9_engine_names_wellformed (q : String) (r : TableReference)
    (h : r ∈ extract_table_references q) :
    r.sqlite_name ≠ "" ∧
    (∀ c ∈ r.sqlite_name.data, engineNameChar c = true) ∧
    (∀ c, r.sqlite_name.data.head? = some c → c.isDigit = false) := by
  obtain ⟨t, ht⟩ := mem_dedupeParse _ _ r h
  obtain ⟨a, b, c, hn⟩ := parse_reference_name t r ht
  rw [hn]
  exact generate_sqlite_name_wf a b c

theorem spec_c9_witness :
    ((⟨"orders", none, some "orders", none, "orders"⟩ : TableReference).sqlite_name
        ≠ "" ∧
      (∀ c ∈ (⟨"orders", none, some "orders", none,
        "orders"⟩ : TableReference).sqlite_name.data, engineNameChar c = true) ∧
      (∀ c, (⟨"orders", none, some "orders", none,
          "orders"⟩ : TableReference).sqlite_name.data.head? = some c →
        c.isDigit = false)) :=
  spec_c9_engine_names_wellformed "SELECT * FROM orders" _ (by decide)
